import Mathlib

set_option maxRecDepth 8000

/-!
Verification model of the `signals` reactive engine (Go package):
cells (`signal[T]`), derived values (`memo[T]`), effects, scope and engine
lifecycle, listener tracking and batching.

The Go code is embedded as an explicit state machine:
* user-supplied closures (effect bodies, batch bodies, cleanup callbacks)
  are deep-embedded as lists of `Act`ions;
* memo compute functions `func() T` are deep-embedded as `MExp` expressions
  over reads of other nodes;
* node values are specialised to `Nat` (the Go code is generic in `T`);
* Go maps (subscriber sets, source sets, the batch queue) are modelled as
  insertion-ordered duplicate-free lists, which fixes one deterministic
  iteration order for Go's unspecified map iteration order;
* an instrumentation trace records observable events: `notify()` calls,
  effect-function runs, memo-compute runs, tracked reads, and `emit` models
  a user closure bumping a counter (as the repository's tests do).

All interpreter functions are fuel-indexed and total; fuel 0 returns the
state unchanged.  Concrete scenarios use ample fuel.
-/

namespace SignalsGo

/-- Deep embedding of a memo compute function `func() T` (reads plus pure
arithmetic on the values read). -/
inductive MExp where
  | lit (n : Nat)
  | readS (id : Nat)
  | readM (id : Nat)
  | add (a b : MExp)
  | mul (a b : MExp)
deriving DecidableEq

/-- Deep embedding of user code run inside effects, batches, untrack blocks
and cleanup callbacks. -/
inductive Act where
  | getS (id : Nat)
  | setS (id : Nat) (v : Nat)
  | updateS (id : Nat) (f : Nat → Nat)
  | getM (id : Nat)
  | untrack (body : List Act)
  | batch (body : List Act)
  | onCleanup (body : List Act)
  | emit (tag : Nat)

/-- Observable events recorded by the instrumented interpreter. -/
inductive Ev where
  | notifyCall (id : Nat)
  | effectRun (id : Nat)
  | memoCompute (id : Nat)
  | readS (id : Nat)
  | readM (id : Nat)
  | emit (tag : Nat)
deriving DecidableEq

/-- An entry of `Scope.cleanup` (a `[]func()` in Go): either the structural
`m.cleanup` registered by `Memo` via `OnCleanup(s, m.cleanup)`, or a
user-registered callback. -/
inductive CleanupItem where
  | memoDetach (id : Nat)
  | user (body : List Act)

/-- A reactive graph node: `signal[T]` (value, subscribers), `memo[T]`
(compute fn, cached value, dirty flag, subscribers, sources) or `effect`
(fn, sources).  Fields follow `signal.go`, `memo` and `effect.go`. -/
inductive Node where
  | sig (value : Nat) (subs : List Nat)
  | memo (body : MExp) (value : Nat) (dirty : Bool) (subs : List Nat) (srcs : List Nat)
  | eff (body : List Act) (srcs : List Nat)

/-- The whole reactive state: the node heap, the `Engine` fields
(`listener`, `listenerStack`, `isBatching`, `batchQueue`, `isClosed`),
the root `Scope` fields (`isLive`, `cleanup`), and the instrumentation
trace. -/
structure St where
  nodes : List (Nat × Node)
  listener : Option Nat
  listenerStack : List (Option Nat)
  isBatching : Bool
  batchQueue : List Nat
  scopeLive : Bool
  scopeCleanup : List CleanupItem
  engClosed : Bool
  trace : List Ev

/-- Map insertion (`m[k] = struct{}{}`): add if absent, keep order. -/
def insertId (x : Nat) (xs : List Nat) : List Nat :=
  if x ∈ xs then xs else xs ++ [x]

/-- Map deletion (`delete(m, k)`). -/
def removeId (x : Nat) (xs : List Nat) : List Nat :=
  xs.filter (fun y => y ≠ x)

def findNode : List (Nat × Node) → Nat → Option Node
  | [], _ => none
  | (k, n) :: rest, id => if k = id then some n else findNode rest id

def lookupNode (st : St) (id : Nat) : Option Node :=
  findNode st.nodes id

def setNodes : List (Nat × Node) → Nat → Node → List (Nat × Node)
  | [], _, _ => []
  | (k, n) :: rest, id, nd =>
    if k = id then (k, nd) :: rest else (k, n) :: setNodes rest id nd

def setNode (st : St) (id : Nat) (nd : Node) : St :=
  { st with nodes := setNodes st.nodes id nd }

def logEv (st : St) (e : Ev) : St :=
  { st with trace := st.trace ++ [e] }

/-- `(*Engine).pushListener` (part_005): append the current listener to the
stack, then install the new one. -/
def pushL (st : St) (c : Option Nat) : St :=
  { st with listenerStack := st.listenerStack ++ [st.listener], listener := c }

/-- `(*Engine).popListener` (part_005): drop the top of the stack if
non-empty, then set the listener to the new top (or nil if empty). -/
def popL (st : St) : St :=
  let stk := if st.listenerStack.isEmpty then st.listenerStack else st.listenerStack.dropLast
  match stk.getLast? with
  | some l => { st with listenerStack := stk, listener := l }
  | none => { st with listenerStack := stk, listener := none }

/-- `subscribable.unsubscribe(c)`: remove computation `compId` from the
subscriber set of node `srcId` (`signal.go` / promoted to `memo`). -/
def unsubscribeFrom (st : St) (srcId compId : Nat) : St :=
  match lookupNode st srcId with
  | some (.sig v subs) => setNode st srcId (.sig v (removeId compId subs))
  | some (.memo b v d subs srcs) => setNode st srcId (.memo b v d (removeId compId subs) srcs)
  | _ => st

/-- `computation.addSource(s)`: record node `srcId` in the source set of
computation `compId` (`effect.go` / part_001). -/
def addSourceTo (st : St) (compId srcId : Nat) : St :=
  match lookupNode st compId with
  | some (.eff body srcs) => setNode st compId (.eff body (insertId srcId srcs))
  | some (.memo b v d subs srcs) => setNode st compId (.memo b v d subs (insertId srcId srcs))
  | _ => st

/-- `(*effect).cleanup` (effect.go): unsubscribe from every recorded source,
then clear the source set. -/
def effCleanup (st : St) (id : Nat) : St :=
  match lookupNode st id with
  | some (.eff _ srcs) =>
    let st1 := srcs.foldl (fun s srcId => unsubscribeFrom s srcId id) st
    match lookupNode st1 id with
    | some (.eff body2 _) => setNode st1 id (.eff body2 [])
    | _ => st1
  | _ => st

/-- `(*memo).cleanup` (part_001): unsubscribe from every recorded source,
then clear the source set. -/
def memoCleanup (st : St) (id : Nat) : St :=
  match lookupNode st id with
  | some (.memo _ _ _ _ srcs) =>
    let st1 := srcs.foldl (fun s srcId => unsubscribeFrom s srcId id) st
    match lookupNode st1 id with
    | some (.memo b2 v2 d2 subs2 _) => setNode st1 id (.memo b2 v2 d2 subs2 [])
    | _ => st1
  | _ => st

/-- `(*signal).Get` (signal.go): if there is a current listener, add it to
the subscribers and record this signal among the listener's sources; then
return the value. -/
def signalGetStep (st : St) (id : Nat) : St × Nat :=
  match lookupNode st id with
  | some (.sig v subs) =>
    let st1 := logEv st (.readS id)
    let st2 :=
      match st1.listener with
      | some l => addSourceTo (setNode st1 id (.sig v (insertId l subs))) l id
      | none => st1
    (st2, v)
  | _ => (st, 0)

def memoValue (st : St) (id : Nat) : Nat :=
  match lookupNode st id with
  | some (.memo _ v _ _ _) => v
  | _ => 0

mutual

/-- One user action, interpreted as the Go code runs it.  `setS` is
`(*signal).Set`, `updateS` is `(*signal).Update`, `batch` is
`(*Scope).Batch` (part_004), `untrack` is `Untrack`, `onCleanup` is
`OnCleanup` (effect.go). -/
def runAct : Nat → St → Act → St
  | 0, st, _ => st
  | f+1, st, a =>
    match a with
    | .getS id => (signalGetStep st id).1
    | .setS id v =>
      match lookupNode st id with
      | some (.sig _ subs) =>
        let st1 := setNode st id (.sig v subs)
        if st1.isBatching then
          { st1 with batchQueue := subs.foldl (fun q c => insertId c q) st1.batchQueue }
        else notifyList f st1 subs
      | _ => st
    | .updateS id fn =>
      match lookupNode st id with
      | some (.sig v subs) => setNode st id (.sig (fn v) subs)
      | _ => st
    | .getM id => (memoGet f st id).1
    | .untrack body =>
      let st1 := pushL st none
      let st2 := runActs f st1 body
      popL st2
    | .batch body =>
      if st.scopeLive then
        let st1 := { st with isBatching := true }
        let st2 := runActs f st1 body
        notifyList f st2 st2.batchQueue
      else st
    | .onCleanup body => { st with scopeCleanup := st.scopeCleanup ++ [.user body] }
    | .emit tag => logEv st (.emit tag)

def runActs : Nat → St → List Act → St
  | _, st, [] => st
  | 0, st, _ => st
  | f+1, st, a :: rest => runActs f (runAct f st a) rest

/-- `computation.notify()`: an effect first runs `cleanup`, then re-runs its
function under listener tracking (effect.go); a memo returns at once when
already dirty, otherwise marks itself dirty and notifies its own
subscribers (part_001). -/
def notifyComp : Nat → St → Nat → St
  | 0, st, _ => st
  | f+1, st, id =>
    let st1 := logEv st (.notifyCall id)
    match lookupNode st1 id with
    | some (.eff body _) =>
      let st2 := effCleanup st1 id
      let st3 := pushL st2 (some id)
      let st4 := runActs f (logEv st3 (.effectRun id)) body
      popL st4
    | some (.memo b v d subs srcs) =>
      if d then st1
      else notifyList f (setNode st1 id (.memo b v true subs srcs)) subs
    | _ => st1

def notifyList : Nat → St → List Nat → St
  | _, st, [] => st
  | 0, st, _ => st
  | f+1, st, c :: rest => notifyList f (notifyComp f st c) rest

/-- `(*memo).Get` (part_001): register the current listener, recompute when
dirty, then return the stored value. -/
def memoGet : Nat → St → Nat → St × Nat
  | 0, st, _ => (st, 0)
  | f+1, st, id =>
    match lookupNode st id with
    | some (.memo b v d subs srcs) =>
      let st1 := logEv st (.readM id)
      let st2 :=
        match st1.listener with
        | some l => addSourceTo (setNode st1 id (.memo b v d (insertId l subs) srcs)) l id
        | none => st1
      let st3 := if d then memoRunComputation f st2 id else st2
      (st3, memoValue st3 id)
    | _ => (st, 0)

/-- `(*memo).runComputation` (part_001): cleanup, push this memo as the
listener, run the compute function, pop, store the value and clear the
dirty flag. -/
def memoRunComputation : Nat → St → Nat → St
  | 0, st, _ => st
  | f+1, st, id =>
    let st1 := memoCleanup st id
    let st2 := pushL st1 (some id)
    match lookupNode st2 id with
    | some (.memo b _ _ _ _) =>
      let p := evalExp f (logEv st2 (.memoCompute id)) b
      let st3 := popL p.1
      match lookupNode st3 id with
      | some (.memo b2 _ _ subs2 srcs2) => setNode st3 id (.memo b2 p.2 false subs2 srcs2)
      | _ => st3
    | _ => popL st2

def evalExp : Nat → St → MExp → St × Nat
  | 0, st, _ => (st, 0)
  | f+1, st, e =>
    match e with
    | .lit n => (st, n)
    | .readS id => signalGetStep st id
    | .readM id => memoGet f st id
    | .add a b =>
      let p := evalExp f st a
      let q := evalExp f p.1 b
      (q.1, p.2 + q.2)
    | .mul a b =>
      let p := evalExp f st a
      let q := evalExp f p.1 b
      (q.1, p.2 * q.2)

/-- `(*Scope).Dispose` loop body (part_004): run the registered cleanup
callbacks. -/
def runCleanupItems : Nat → St → List CleanupItem → St
  | _, st, [] => st
  | 0, st, _ => st
  | f+1, st, item :: rest =>
    let st1 :=
      match item with
      | .memoDetach id => memoCleanup st id
      | .user body => runActs f st body
    runCleanupItems f st1 rest

end

/-- `(*Scope).Dispose` (part_004): one-shot; runs cleanup callbacks in
reverse registration order, then discards the list. -/
def dispose (f : Nat) (st : St) : St :=
  if st.scopeLive then
    let st1 := { st with scopeLive := false }
    let st2 := runCleanupItems f st1 st1.scopeCleanup.reverse
    { st2 with scopeCleanup := [] }
  else st

/-- `(*Engine).Close` (part_005): first call disposes the root scope and
succeeds (`true`); later calls report `ErrEngineClosed` (`false`) and do
nothing. -/
def closeE (f : Nat) (st : St) : St × Bool :=
  if st.engClosed then (st, false)
  else (dispose f { st with engClosed := true }, true)

/-- `Start()` (part_005): fresh engine with a live root scope. -/
def startState : St :=
  { nodes := [], listener := none, listenerStack := [], isBatching := false,
    batchQueue := [], scopeLive := true, scopeCleanup := [], engClosed := false,
    trace := [] }

def addNode (st : St) (id : Nat) (nd : Node) : St :=
  { st with nodes := st.nodes ++ [(id, nd)] }

/-- `New` (part_004): a fresh signal with an empty subscriber set. -/
def newSignal (st : St) (id : Nat) (v : Nat) : St :=
  addNode st id (.sig v [])

/-- `Memo` (part_001): starts dirty, never computed; registers its
structural cleanup on the scope. -/
def createMemo (st : St) (id : Nat) (b : MExp) : St :=
  let st1 := addNode st id (.memo b 0 true [] [])
  { st1 with scopeCleanup := st1.scopeCleanup ++ [.memoDetach id] }

/-- `Effect` (effect.go): construct the effect and run `notify()` once.
Note the effect registers nothing on the scope. -/
def createEffect (f : Nat) (st : St) (id : Nat) (body : List Act) : St :=
  notifyComp f (addNode st id (.eff body [])) id

/-! ### Observation helpers -/

def nodeSubs (st : St) (id : Nat) : List Nat :=
  match lookupNode st id with
  | some (.sig _ subs) => subs
  | some (.memo _ _ _ subs _) => subs
  | _ => []

def nodeSrcs (st : St) (id : Nat) : List Nat :=
  match lookupNode st id with
  | some (.eff _ srcs) => srcs
  | some (.memo _ _ _ _ srcs) => srcs
  | _ => []

def sigValue (st : St) (id : Nat) : Nat :=
  match lookupNode st id with
  | some (.sig v _) => v
  | _ => 0

def memoDirty (st : St) (id : Nat) : Bool :=
  match lookupNode st id with
  | some (.memo _ _ d _ _) => d
  | _ => false

def countEffectRuns (st : St) (id : Nat) : Nat :=
  st.trace.countP fun e => decide (e = .effectRun id)

def countComputes (st : St) (id : Nat) : Nat :=
  st.trace.countP fun e => decide (e = .memoCompute id)

def countNotifies (st : St) (id : Nat) : Nat :=
  st.trace.countP fun e => decide (e = .notifyCall id)

def countEmits (st : St) (tag : Nat) : Nat :=
  st.trace.countP fun e => decide (e = .emit tag)

def countComputeAll (st : St) : Nat :=
  st.trace.countP fun e =>
    match e with
    | .memoCompute _ => true
    | _ => false

def isEffNode : Node → Bool
  | .eff _ _ => true
  | _ => false

/-- No effect node exists in the state (signals and memos only). -/
def noEff (st : St) : Prop :=
  ∀ pr ∈ st.nodes, isEffNode pr.2 = false

instance noEffDec (st : St) : Decidable (noEff st) :=
  inferInstanceAs (Decidable (∀ pr ∈ st.nodes, isEffNode pr.2 = false))

/-! ### Basic structural lemmas -/

theorem lookupNode_logEv (st : St) (e : Ev) (id : Nat) :
    lookupNode (logEv st e) id = lookupNode st id := rfl

theorem logEv_listener (st : St) (e : Ev) : (logEv st e).listener = st.listener := rfl

theorem logEv_nodes (st : St) (e : Ev) : (logEv st e).nodes = st.nodes := rfl

theorem setNode_isBatching (st : St) (id : Nat) (nd : Node) :
    (setNode st id nd).isBatching = st.isBatching := rfl

theorem countComputeAll_logEv_nc (st : St) (id : Nat) :
    countComputeAll (logEv st (.notifyCall id)) = countComputeAll st := by
  simp [countComputeAll, logEv, List.countP_append, List.countP_cons, List.countP_nil]

theorem countComputeAll_setNode (st : St) (id : Nat) (nd : Node) :
    countComputeAll (setNode st id nd) = countComputeAll st := rfl

theorem findNode_eff_false :
    ∀ (l : List (Nat × Node)) (id : Nat) (n : Node),
      (∀ pr ∈ l, isEffNode pr.2 = false) → findNode l id = some n →
      isEffNode n = false := by
  intro l
  induction l with
  | nil => intro id n h hf; simp [findNode] at hf
  | cons pr rest ih =>
    intro id n h hf
    rcases pr with ⟨k, nd⟩
    by_cases hk : k = id
    · simp [findNode, hk] at hf
      rw [← hf]
      exact h (k, nd) (by simp)
    · simp [findNode, hk] at hf
      exact ih id n (fun q hq => h q (by simp [hq])) hf

theorem noEff_lookup {st : St} {id : Nat} {n : Node} (h : noEff st)
    (hl : lookupNode st id = some n) : isEffNode n = false :=
  findNode_eff_false st.nodes id n h hl

theorem setNodes_mem :
    ∀ (l : List (Nat × Node)) (id : Nat) (nd : Node) (pr : Nat × Node),
      pr ∈ setNodes l id nd → pr.2 = nd ∨ pr ∈ l := by
  intro l id nd
  induction l with
  | nil => intro pr h; simp [setNodes] at h
  | cons q rest ih =>
    intro pr h
    rcases q with ⟨k, n⟩
    by_cases hk : k = id
    · simp [setNodes, hk] at h
      rcases h with h | h
      · left; rw [h]
      · right; simp [h]
    · simp [setNodes, hk] at h
      rcases h with h | h
      · right; simp [h]
      · rcases ih pr h with h2 | h2
        · left; exact h2
        · right; simp [h2]

theorem noEff_setNode {st : St} {id : Nat} {nd : Node} (h : noEff st)
    (hnd : isEffNode nd = false) : noEff (setNode st id nd) := by
  intro pr hpr
  rcases setNodes_mem st.nodes id nd pr hpr with h2 | h2
  · rw [h2]; exact hnd
  · exact h pr h2

/-- In a state containing no effect node, `notify()` never invokes any memo
compute function (it only flips dirty flags), and it leaves the state
effect-free.  This is the dirty-propagation half of memo laziness. -/
theorem notify_noEff_no_compute : ∀ f : Nat,
    (∀ (st : St) (id : Nat), noEff st →
      noEff (notifyComp f st id) ∧
      countComputeAll (notifyComp f st id) = countComputeAll st) ∧
    (∀ (st : St) (l : List Nat), noEff st →
      noEff (notifyList f st l) ∧
      countComputeAll (notifyList f st l) = countComputeAll st) := by
  intro f
  induction f with
  | zero =>
    refine ⟨fun st id h => ⟨h, rfl⟩, fun st l h => ?_⟩
    cases l with
    | nil => exact ⟨h, rfl⟩
    | cons c rest => exact ⟨h, rfl⟩
  | succ f ih =>
    refine ⟨?_, ?_⟩
    · intro st id h
      have hlog : noEff (logEv st (Ev.notifyCall id)) := h
      rcases hl : lookupNode st id with _ | nd
      · have heq : notifyComp (f+1) st id = logEv st (.notifyCall id) := by
          simp [notifyComp, lookupNode_logEv, hl]
        rw [heq]
        exact ⟨hlog, countComputeAll_logEv_nc st id⟩
      · cases nd with
        | sig v subs =>
          have heq : notifyComp (f+1) st id = logEv st (.notifyCall id) := by
            simp [notifyComp, lookupNode_logEv, hl]
          rw [heq]
          exact ⟨hlog, countComputeAll_logEv_nc st id⟩
        | memo b v d subs srcs =>
          cases d with
          | true =>
            have heq : notifyComp (f+1) st id = logEv st (.notifyCall id) := by
              simp [notifyComp, lookupNode_logEv, hl]
            rw [heq]
            exact ⟨hlog, countComputeAll_logEv_nc st id⟩
          | false =>
            have heq : notifyComp (f+1) st id =
                notifyList f
                  (setNode (logEv st (.notifyCall id)) id (.memo b v true subs srcs)) subs := by
              simp [notifyComp, lookupNode_logEv, hl]
            rw [heq]
            have h2 : noEff (setNode (logEv st (.notifyCall id)) id (.memo b v true subs srcs)) :=
              noEff_setNode hlog rfl
            rcases (ih.2) _ subs h2 with ⟨h3, h4⟩
            refine ⟨h3, ?_⟩
            rw [h4, countComputeAll_setNode, countComputeAll_logEv_nc]
        | eff body srcs =>
          have hfalse := noEff_lookup h hl
          simp [isEffNode] at hfalse
    · intro st l h
      cases l with
      | nil => exact ⟨h, rfl⟩
      | cons c rest =>
        have heq : notifyList (f+1) st (c :: rest) = notifyList f (notifyComp f st c) rest := rfl
        rw [heq]
        rcases (ih.1) st c h with ⟨h1, h2⟩
        rcases (ih.2) _ rest h1 with ⟨h3, h4⟩
        exact ⟨h3, by rw [h4, h2]⟩

/-- In a state with no effect node, a `Set` never invokes any memo compute
function: notification only marks memos dirty. -/
theorem setS_no_compute : ∀ (f : Nat) (st : St) (id v : Nat), noEff st →
    countComputeAll (runAct f st (.setS id v)) = countComputeAll st := by
  intro f st id v h
  cases f with
  | zero => rfl
  | succ f =>
    rcases hl : lookupNode st id with _ | nd
    · simp [runAct, hl]
    · cases nd with
      | sig v0 subs =>
        have heq : runAct (f+1) st (.setS id v) =
            (if st.isBatching then
              { (setNode st id (.sig v subs)) with
                  batchQueue := subs.foldl (fun q c => insertId c q)
                    (setNode st id (.sig v subs)).batchQueue }
            else notifyList f (setNode st id (.sig v subs)) subs) := by
          simp [runAct, hl, setNode_isBatching]
        rw [heq]
        cases hb : st.isBatching with
        | true => rfl
        | false =>
          simp only [Bool.false_eq_true, if_false]
          have h2 : noEff (setNode st id (.sig v subs)) := noEff_setNode h rfl
          rw [((notify_noEff_no_compute f).2) _ subs h2 |>.2, countComputeAll_setNode]
      | memo b v2 d subs srcs => simp [runAct, hl]
      | eff body srcs => simp [runAct, hl]

/-! ### Concrete scenarios

`baseSigEff`: `Start()`, a signal (node 0) with value 10, and an effect
(node 1) whose function reads the signal — the setup of
`TestEffect_RunsOnSignalChanges` and `TestEffect_BatchedChangesRunOnce`. -/

def baseSigEff : St := createEffect 64 (newSignal startState 0 10) 1 [.getS 0]

def c1AfterBatch : St := runAct 64 baseSigEff (.batch [.setS 0 20])

def c1AfterWrite : St := runAct 64 c1AfterBatch (.setS 0 30)

/-- C1: `Scope.Batch(fn)` marks the runtime as batching and runs fn; on
return it is claimed to have cleared the batching state (flag off, pending
set empty) and notified each pending computation once, so that later
writes outside a batch notify immediately.  The code never resets
`isBatching` and never empties `batchQueue`: after one batch the flag is
still on, the queue still holds the effect, and a later `Set` outside any
batch is silently queued instead of notifying, so the effect never runs
for it. -/
theorem c1_batch_leaves_batching_state :
    countEffectRuns baseSigEff 1 = 1 ∧
    countEffectRuns c1AfterBatch 1 = 2 ∧
    c1AfterBatch.isBatching = true ∧
    c1AfterBatch.batchQueue = [1] ∧
    sigValue c1AfterWrite 0 = 30 ∧
    countEffectRuns c1AfterWrite 1 = 2 ∧
    c1AfterWrite.batchQueue = [1] := by
  refine ⟨by decide, by decide, by decide, by decide, by decide, by decide, by decide⟩

def c2AfterUpdate : St := runAct 64 baseSigEff (.updateS 0 (fun v => v * 3))

def c2AfterSet : St := runAct 64 baseSigEff (.setS 0 30)

/-- C2: the claim says `Update` mutates the stored value in place and then
performs the same notification step as `Set`.  In the code `Update` only
mutates the value: the general clause proves a `Update` call is exactly
`setNode` with the new value (no notification, no trace event, no batch
enqueue), and the concrete scenario shows the subscribed effect does not
re-run under `Update` while it does under `Set`. -/
theorem c2_update_performs_no_notification :
    (∀ (f : Nat) (st : St) (id : Nat) (fn : Nat → Nat) (v : Nat) (subs : List Nat),
      lookupNode st id = some (.sig v subs) →
      runAct (f+1) st (.updateS id fn) = setNode st id (.sig (fn v) subs)) ∧
    sigValue c2AfterUpdate 0 = 30 ∧
    c2AfterUpdate.trace = baseSigEff.trace ∧
    countEffectRuns c2AfterUpdate 1 = 1 ∧
    countEffectRuns c2AfterSet 1 = 2 := by
  refine ⟨?_, by decide, by decide, by decide, by decide⟩
  intro f st id fn v subs h
  simp [runAct, h]

def c2WitnessSt : St := newSignal startState 0 10

theorem c2_update_performs_no_notification_witness :
    runAct 1 c2WitnessSt (.updateS 0 (fun v => v + 5)) = setNode c2WitnessSt 0 (.sig 15 []) :=
  c2_update_performs_no_notification.1 0 c2WitnessSt 0 (fun v => v + 5) 10 [] rfl

def c3Closed : St × Bool := closeE 64 baseSigEff

def c3AfterSet : St := runAct 64 c3Closed.1 (.setS 0 20)

/-- C3: the first `Close()` succeeds and disposes the root scope, the
second reports already-closed with no side effects, and `Batch` on the
disposed scope is a no-op — all of which hold.  But the claim also says
cell writes in the closed scope produce no effect runs: because `Effect`
never registers its cleanup with the scope, the effect stays subscribed
after `Close()`, and a `Set` still re-runs it. -/
theorem c3_write_after_close_still_runs_effect :
    c3Closed.2 = true ∧
    c3Closed.1.scopeLive = false ∧
    (closeE 64 c3Closed.1).2 = false ∧
    (closeE 64 c3Closed.1).1 = c3Closed.1 ∧
    runAct 64 c3Closed.1 (.batch [.setS 0 20]) = c3Closed.1 ∧
    countEffectRuns c3Closed.1 1 = 1 ∧
    nodeSubs c3Closed.1 0 = [1] ∧
    countEffectRuns c3AfterSet 1 = 2 := by
  refine ⟨by decide, by decide, by decide, rfl, rfl, by decide, by decide, by decide⟩

def c4Base : St := createEffect 64 (newSignal startState 0 10) 1 [.onCleanup [.emit 7], .getS 0]

def c4AfterSet : St := runAct 64 c4Base (.setS 0 20)

def c4Disposed : St := dispose 64 c4AfterSet

/-- C4: the claim says a function registered via `OnCleanup` during an
effect's evaluation runs before the next invocation of the effect's
function, on every re-run.  In the code `OnCleanup` appends to the scope's
cleanup list only: after a dependency write the effect has re-run
(2 effect runs) yet the registered callback has not executed (0 emits);
both registrations (one per run) execute only when the scope is disposed. -/
theorem c4_oncleanup_runs_only_at_dispose :
    countEffectRuns c4AfterSet 1 = 2 ∧
    countEmits c4AfterSet 7 = 0 ∧
    c4AfterSet.scopeCleanup.length = 2 ∧
    countEmits c4Disposed 7 = 2 ∧
    c4Disposed.trace = c4AfterSet.trace ++ [.emit 7, .emit 7] := by
  refine ⟨by decide, by decide, by decide, by decide, by decide⟩

/-- C5: the claim says each pop of the listener stack restores the current
listener to the value it had before the matching push.  The code appends
the old listener on push, but on pop it first drops the top of the stack
(the very value that should be restored) and then installs the element
below it: after push(1); push(2), the listener is 2 and the stack is
[nil, 1], and pop yields listener nil instead of 1. -/
theorem c5_pop_listener_restores_wrong_value :
    (pushL (pushL startState (some 1)) (some 2)).listener = some 2 ∧
    (pushL (pushL startState (some 1)) (some 2)).listenerStack = [none, some 1] ∧
    (popL (pushL (pushL startState (some 1)) (some 2))).listener = none ∧
    (popL (pushL (pushL startState (some 1)) (some 2))).listenerStack = [none] := by
  refine ⟨by decide, by decide, by decide, by decide⟩

/-- Signals 0 (value 10), 1 (value 5), 2 (value 7); memo 3 computes from
signal 1; effect 4 reads signal 0, then memo 3 (which recomputes), then
signal 2. -/
def c6Setup : St :=
  createEffect 64
    (createMemo (newSignal (newSignal (newSignal startState 0 10) 1 5) 2 7) 3 (.readS 1))
    4 [.getS 0, .getM 3, .getS 2]

/-- C6: the claim says after a complete evaluation a computation's source
set equals exactly the subscribables read during that evaluation.  The
detach-before-rerun half holds, but the equality fails: when the effect's
run contains a nested memo recomputation, the buggy `popListener` restores
the listener to nil instead of the effect, so the signal read afterwards
(`readS 2` in the trace) is recorded neither in the effect's sources
([0, 3] only) nor in the signal's subscribers ([]). -/
theorem c6_source_set_drops_read_after_nested_memo :
    c6Setup.trace =
      [.notifyCall 4, .effectRun 4, .readS 0, .readM 3, .memoCompute 3, .readS 1, .readS 2] ∧
    nodeSrcs c6Setup 4 = [0, 3] ∧
    nodeSubs c6Setup 0 = [4] ∧
    nodeSubs c6Setup 2 = [] ∧
    nodeSrcs c6Setup 3 = [1] ∧
    c6Setup.listener = none := by
  refine ⟨by decide, by decide, by decide, by decide, by decide, by decide⟩

def c7AfterNested : St := runAct 64 baseSigEff (.batch [.setS 0 20, .batch []])

/-- C7: the claim says a batch entered while already batching never flushes
early, so pending computations are notified only once, at the outermost
batch boundary (here: one creation run plus exactly one flush run, 2 effect
runs in total).  The code flushes the shared queue at the end of every
`Batch` call and never clears it: the inner (empty) batch flushes the
pending effect inside the outer batch, and the outer boundary notifies it
again, for 3 effect runs. -/
theorem c7_nested_batch_flushes_early :
    countEffectRuns baseSigEff 1 = 1 ∧
    countEffectRuns c7AfterNested 1 = 3 ∧
    c7AfterNested.batchQueue = [1] ∧
    c7AfterNested.isBatching = true := by
  refine ⟨by decide, by decide, by decide, by decide⟩

/-- Signal 0 feeding memo 1, which feeds memo 2 (both clean). -/
def c8Chain : St :=
  { startState with
      nodes := [(0, .sig 5 [1]), (1, .memo (.readS 0) 10 false [2] [0]),
                (2, .memo (.add (.readM 1) (.lit 1)) 11 false [] [1])] }

def c8Once : St := notifyComp 32 c8Chain 1

def c8Twice : St := notifyComp 32 c8Once 1

/-- C8: a memo's `notify()` is idempotent while dirty — if already dirty it
returns immediately without propagating (first clause: the state is
unchanged except for recording the call), and if clean it sets dirty and
then calls `notify()` on each of its own subscribers (second clause).
Concretely, notifying the clean memo 1 twice propagates to its downstream
memo 2 exactly once: the second notification finds memo 1 dirty and stops. -/
theorem c8_memo_notify_dirty_idempotent :
    (∀ (f : Nat) (st : St) (id : Nat) (b : MExp) (v : Nat) (subs srcs : List Nat),
      lookupNode st id = some (.memo b v true subs srcs) →
      notifyComp (f+1) st id = logEv st (.notifyCall id)) ∧
    (∀ (f : Nat) (st : St) (id : Nat) (b : MExp) (v : Nat) (subs srcs : List Nat),
      lookupNode st id = some (.memo b v false subs srcs) →
      notifyComp (f+1) st id =
        notifyList f (setNode (logEv st (.notifyCall id)) id (.memo b v true subs srcs)) subs) ∧
    memoDirty c8Once 1 = true ∧
    memoDirty c8Once 2 = true ∧
    countNotifies c8Once 2 = 1 ∧
    countNotifies c8Twice 2 = 1 ∧
    c8Twice.nodes = c8Once.nodes ∧
    c8Twice.trace = c8Once.trace ++ [.notifyCall 1] := by
  refine ⟨?_, ?_, by decide, by decide, by decide, by decide, rfl, by decide⟩
  · intro f st id b v subs srcs h
    simp [notifyComp, lookupNode_logEv, h]
  · intro f st id b v subs srcs h
    simp [notifyComp, lookupNode_logEv, h]

def c8DirtySt : St := { startState with nodes := [(0, .memo (.lit 1) 0 true [] [])] }

def c8CleanSt : St := { startState with nodes := [(0, .memo (.lit 1) 0 false [] [])] }

theorem c8_memo_notify_dirty_idempotent_witness :
    notifyComp 3 c8DirtySt 0 = logEv c8DirtySt (.notifyCall 0) ∧
    notifyComp 3 c8CleanSt 0 =
      notifyList 2 (setNode (logEv c8CleanSt (.notifyCall 0)) 0 (.memo (.lit 1) 0 true [] [])) [] :=
  ⟨c8_memo_notify_dirty_idempotent.1 2 c8DirtySt 0 (.lit 1) 0 [] [] rfl,
   c8_memo_notify_dirty_idempotent.2.1 2 c8CleanSt 0 (.lit 1) 0 [] [] rfl⟩

/-- Signal 0 (value 10) and memo 1 computing signal 0 times 2. -/
def c9S0 : St := createMemo (newSignal startState 0 10) 1 (.mul (.readS 0) (.lit 2))

def c9G1 : St × Nat := memoGet 64 c9S0 1

def c9G2 : St × Nat := memoGet 64 c9G1.1 1

def c9W : St := runAct 64 c9G2.1 (.setS 0 20)

def c9G3 : St × Nat := memoGet 64 c9W 1

/-- C9: memo laziness and caching.  Creating a memo invokes no compute
function (first clause, fully general: creation leaves the trace
unchanged).  A dependency write never invokes a compute function as long as
no effect node exists (second clause: notification only marks memos
dirty).  Concretely: after creation 0 compute runs; the first `Get`
computes once and returns 20; a second `Get` with no intervening change
still totals one compute; a `Set` adds no compute; the next `Get` finds
the memo dirty and computes a second time, returning 40. -/
theorem c9_memo_lazy_cached :
    (∀ (st : St) (id : Nat) (b : MExp), (createMemo st id b).trace = st.trace) ∧
    (∀ (f : Nat) (st : St) (id v : Nat), noEff st →
      countComputeAll (runAct f st (.setS id v)) = countComputeAll st) ∧
    countComputes c9S0 1 = 0 ∧
    (countComputes c9G1.1 1 = 1 ∧ c9G1.2 = 20) ∧
    (countComputes c9G2.1 1 = 1 ∧ c9G2.2 = 20) ∧
    countComputes c9W 1 = 1 ∧
    (countComputes c9G3.1 1 = 2 ∧ c9G3.2 = 40) := by
  refine ⟨fun st id b => rfl, fun f st id v h => setS_no_compute f st id v h,
    by decide, ⟨by decide, by decide⟩, ⟨by decide, by decide⟩, by decide,
    ⟨by decide, by decide⟩⟩

theorem c9_memo_lazy_cached_witness :
    countComputeAll (runAct 8 c9G2.1 (.setS 0 99)) = countComputeAll c9G2.1 :=
  c9_memo_lazy_cached.2.1 8 c9G2.1 0 99 (by decide)

def c10After : St := runAct 64 (newSignal startState 0 10) (.untrack [.getS 0])

/-- C10: popping the listener stack when it is empty is safe: the stack
stays empty and the listener becomes nil (first clause, general).  A read
with no current listener registers no dependency edge and changes no node
(second clause, general).  Concretely, a top-level `Untrack` around a
signal read finishes with nil listener, empty stack, and an empty
subscriber set on the signal. -/
theorem c10_pop_empty_untrack_safe :
    (∀ st : St, st.listenerStack = [] → popL st = { st with listener := none }) ∧
    (∀ (f : Nat) (st : St) (id : Nat), st.listener = none →
      (runAct f st (.getS id)).nodes = st.nodes ∧ (runAct f st (.getS id)).listener = none) ∧
    c10After.listener = none ∧
    c10After.listenerStack = [] ∧
    nodeSubs c10After 0 = [] ∧
    sigValue c10After 0 = 10 := by
  refine ⟨?_, ?_, by decide, by decide, by decide, by decide⟩
  · intro st h
    simp [popL, h]
  · intro f st id h
    cases f with
    | zero => exact ⟨rfl, h⟩
    | succ f =>
      rcases hl : lookupNode st id with _ | nd
      · constructor
        · simp [runAct, signalGetStep, hl]
        · simp [runAct, signalGetStep, hl, h]
      · cases nd with
        | sig v subs =>
          constructor
          · simp [runAct, signalGetStep, hl, logEv_listener, h, logEv_nodes]
          · simp [runAct, signalGetStep, hl, logEv_listener, h]
        | memo b v d subs srcs =>
          constructor
          · simp [runAct, signalGetStep, hl]
          · simp [runAct, signalGetStep, hl, h]
        | eff body srcs =>
          constructor
          · simp [runAct, signalGetStep, hl]
          · simp [runAct, signalGetStep, hl, h]

theorem c10_pop_empty_untrack_safe_witness :
    popL startState = { startState with listener := none } ∧
    (runAct 3 startState (.getS 0)).nodes = startState.nodes ∧
    (runAct 3 startState (.getS 0)).listener = none :=
  ⟨c10_pop_empty_untrack_safe.1 startState rfl,
   (c10_pop_empty_untrack_safe.2.1 3 startState 0 rfl).1,
   (c10_pop_empty_untrack_safe.2.1 3 startState 0 rfl).2⟩

end SignalsGo
